import Mathlib

/-!
Shallow embedding of the martechlander news-summary service: the throttled
summary cache of `server.js` (its four historical endpoint variants) and the
headless feed generator `automation/daily-update.js`.

JavaScript strings are modelled as Lean `String` / `List Char`; machine time
(milliseconds since epoch, from `Date.now()`) as `Int`; the cache file as
`Option String` (file contents, or `none` when the file is absent); the
external summarizer call as an explicit outcome value passed to the handler.
Locale-dependent date formatters (`toLocaleString`, `toUTCString`,
`toISOString`) are abstracted as function parameters.
-/

/-- JS whitespace as used by `String.prototype.trim` (the subset that can
actually occur in the cache payloads: space, tab, LF, VT, FF, CR). -/
def isJsSpace (c : Char) : Bool :=
  c = ' ' || c = '\t' || c = '\n' || c = '\x0b' || c = '\x0c' || c = '\r'

/-- Model of `content.trim()`: drop JS whitespace from both ends. -/
def jsTrim (l : List Char) : List Char :=
  ((l.dropWhile isJsSpace).reverse.dropWhile isJsSpace).reverse

/-- Model of `content.split('\n')`: split at every newline, keeping empty
segments (JS semantics). The result is always nonempty. -/
def splitNl : List Char → List (List Char)
  | [] => [[]]
  | c :: rest =>
    if c = '\n' then [] :: splitNl rest
    else
      match splitNl rest with
      | h :: t => (c :: h) :: t
      | [] => [[c]]

/-- Model of `lines.join('\n')` on the list of line fragments. -/
def joinNl : List (List Char) → List Char
  | [] => []
  | [x] => x
  | x :: xs => x ++ '\n' :: joinNl xs

/-- Decimal digit character for a digit value. -/
def dChar (d : Nat) : Char := Char.ofNat (48 + d)

/-- Fuel-driven decimal printer (the shape of the standard base-10
conversion, kernel-reducible). -/
def natCharsCore : Nat → Nat → List Char → List Char
  | 0, _, acc => acc
  | fuel + 1, n, acc =>
    if n < 10 then dChar n :: acc
    else natCharsCore fuel (n / 10) (dChar (n % 10) :: acc)

/-- Model of JS number-to-string for a non-negative integer
(template-literal interpolation of a timestamp). -/
def natChars (n : Nat) : List Char := natCharsCore (n + 1) n []

/-- Model of JS number-to-string for a (possibly negative) integer. -/
def intChars (i : Int) : List Char :=
  if i < 0 then '-' :: natChars i.natAbs else natChars i.toNat

/-- String form of `natChars`. -/
def natStr (n : Nat) : String := String.mk (natChars n)

/-- String form of `intChars`. -/
def intStr (i : Int) : String := String.mk (intChars i)

/-- Accumulate the numeric value of a string of decimal digit characters,
most significant first (the core loop of `parseInt`). -/
def digitsVal (ds : List Char) : Nat :=
  ds.foldl (fun acc c => acc * 10 + (c.toNat - 48)) 0

/-- The digit-prefix stage of `parseInt(s, 10)`: value of the longest
leading run of decimal digits, `none` (NaN) when there is none. -/
def parseDigits (l : List Char) : Option Nat :=
  match l.takeWhile Char.isDigit with
  | [] => none
  | ds => some (digitsVal ds)

/-- Model of `parseInt(s, 10)`: skip leading whitespace, accept an optional
sign, then parse the longest digit prefix; `none` models `NaN`. -/
def parseInt10 (l : List Char) : Option Int :=
  match l.dropWhile isJsSpace with
  | [] => none
  | c :: rest =>
    if c = '-' then (parseDigits rest).map (fun n => -(n : Int))
    else if c = '+' then (parseDigits rest).map (fun n => (n : Int))
    else (parseDigits (c :: rest)).map (fun n => (n : Int))

/-- The persisted cache record: first line of the cache file is the
timestamp (ms since epoch), the remaining lines are the summary. -/
structure CacheEntry where
  timestamp : Int
  summary : String
deriving DecidableEq

/-- Model of `readCache()` (file variant, identical in `server.js` and
`automation/daily-update.js`): read the file, trim, split into lines;
fewer than two lines or a NaN timestamp is a miss (`none`), as is a
missing file (ENOENT). -/
def readCache (file : Option String) : Option CacheEntry :=
  match file with
  | none => none
  | some content =>
    match splitNl (jsTrim content.data) with
    | l0 :: l1 :: rest =>
      match parseInt10 l0 with
      | none => none
      | some ts => some ⟨ts, String.mk (joinNl (l1 :: rest))⟩
    | _ => none

/-- Model of `writeCache(timestamp, summary)` (file variant): the new file
contents are the timestamp line followed by the summary. -/
def writeCache (ts : Int) (summary : String) : Option String :=
  some (String.mk (intChars ts ++ '\n' :: summary.data))

-- Sanity examples for the string machinery (concrete evaluations).
example : natStr 0 = "0" := by decide
example : natStr 503 = "503" := by decide
example : parseInt10 "123abc".data = some 123 := by decide
example : parseInt10 "abc".data = none := by decide
example : readCache (some "17\nX\nY") = some ⟨17, "X\nY"⟩ := by decide
example : readCache (some "abc\nX") = none := by decide
example : readCache (some "17") = none := by decide
example : readCache (writeCache 0 "X ") = some ⟨0, "X"⟩ := by decide

/-- Throttle configuration: `THROTTLE_MINUTES = 91`. -/
def throttleMinutes : Nat := 91

/-- `THROTTLE_MILLISECONDS = THROTTLE_MINUTES * 60 * 1000`. -/
def throttleMs : Int := (throttleMinutes : Int) * 60 * 1000

/-- The per-request throttle decision (spec name `ThrottleDecision`),
computed by the handlers as `timeElapsed`, `timeRemaining`, `nextRunTime`. -/
structure ThrottleDecision where
  isFresh : Bool
  remaining : Int
  nextEligibleAt : Int
deriving DecidableEq

/-- The pure throttle policy read off the handler code
(`timeElapsed = currentTime - cachedData.timestamp`,
`timeElapsed < THROTTLE_MILLISECONDS`,
`timeRemaining = THROTTLE_MILLISECONDS - timeElapsed`,
`nextRunTime = cachedData.timestamp + THROTTLE_MILLISECONDS`), with the
window generalised to a parameter. -/
def throttleDecide (now generatedAt window : Int) : ThrottleDecision :=
  let timeElapsed := now - generatedAt
  ⟨decide (timeElapsed < window), window - timeElapsed, generatedAt + window⟩

/-- JS falsiness of a nullable string: `null`/`undefined` and the empty
string are falsy. -/
def jsFalsyOptStr : Option String → Bool
  | none => true
  | some s => s = ""

/-- `Math.ceil(t / 60000)` for the remaining-minutes banner figure
(only ever used with positive `t`). -/
def ceilMinutes (t : Int) : Int := (t + 59999) / 60000

/-- Outcome of the external summarizer HTTP call (`fetch` to the provider):
a non-ok HTTP status with its error body, a successful response whose
extractable text is `data.content?.[0]?.text` (possibly absent), or a
thrown network error. -/
inductive ApiResult where
  | httpError (status : Nat) (body : String)
  | okResp (text : Option String)
  | netError (msg : String)
deriving DecidableEq

/-- The fallback text substituted when no summary text can be extracted
from the provider response. -/
def claudeFallbackText : String :=
  "Error: Could not extract summary text from Claude response."

/-- HTTP response of the split-fields endpoint variants:
`200 {header, summary}`, `400 {error}`, or `500 {error}`. -/
inductive HandlerResponse where
  | ok (header : Option String) (summary : String)
  | badRequest (error : String)
  | serverError (error : String)
deriving DecidableEq

/-- Observable outcome of one request: the HTTP response, the resulting
cache-file state, and whether the external summarizer was invoked. -/
structure HandlerOutcome where
  response : HandlerResponse
  file : Option String
  calledApi : Bool
deriving DecidableEq

/-- The throttle-active status banner of the Anthropic variant
(template literal at the cached path), built over an abstract
`formatTimestamp` locale formatter. -/
def throttleActiveHeader (fmt : Int → String) (ts now : Int) : String :=
  "\n                ## ⏳ Summary Throttle Active ⏳\n                This summary was last generated at **"
    ++ fmt ts
    ++ "**.\n                The next beneficial generation time is **"
    ++ fmt (ts + throttleMs)
    ++ "** (in "
    ++ intStr (ceilMinutes (throttleMs - (now - ts)))
    ++ " minutes).\n                The AI model was not called, to conserve the finite API interactions per day.\n                ---\n            "

/-- The freshly-generated status banner of the Anthropic variant. -/
def freshHeader (fmt : Int → String) (newTs : Int) : String :=
  "\n                ## ✅ Summary Freshly Generated by Claude ✅\n                This summary was generated **just now** at **"
    ++ fmt newTs
    ++ "**.\n                The next beneficial generation time will be **"
    ++ fmt (newTs + throttleMs)
    ++ "**.\n                ---\n            "

/-- The 500 error message produced when the provider returns a non-ok
HTTP status (the thrown message wrapped by the catch handler). -/
def httpFailureMsg (status : Nat) (body : String) : String :=
  "Failed to generate AI summary: Anthropic API request failed with status "
    ++ natStr status ++ ": " ++ body

/-- `data.content?.[0]?.text || fallback`: the summary text extracted from
a successful provider response, with the fixed fallback when the text is
missing or empty. -/
def extractedText (text : Option String) : String :=
  if jsFalsyOptStr text then claudeFallbackText else text.getD ""

/-- The `if (!summaryToReturn)` block of the Anthropic-variant handler:
validate the request, call the provider, cache and report the result. -/
def generateArm (fmt : Int → String) (hasApiKey : Bool) (file : Option String)
    (htmlContent : Option String) (api : ApiResult) (genTime : Int) : HandlerOutcome :=
  if jsFalsyOptStr htmlContent then
    ⟨.badRequest "Missing HTML content in request body.", file, false⟩
  else if hasApiKey = false then
    ⟨.serverError "CLAUDE_API_KEY environment variable is not set.", file, false⟩
  else
    match api with
    | .httpError status body =>
      ⟨.serverError (httpFailureMsg status body), file, true⟩
    | .netError msg =>
      ⟨.serverError ("Failed to generate AI summary: " ++ msg), file, true⟩
    | .okResp text =>
      ⟨.ok (some (freshHeader fmt genTime)) (extractedText text),
        writeCache genTime (extractedText text), true⟩

/-- The `app.post('/api/summarize-news')` handler of the Anthropic
file-cache variant (server.js lines 113-246), split at its first await
point: everything after `let cachedData = await readCache()`. `fmt` models
`formatTimestamp`, `hasApiKey` the presence of `CLAUDE_API_KEY`, `file`
the cache-file state at write time, `now` the first `Date.now()`,
`genTime` the second. The request body is `(htmlContent, forceRegenerate)`;
the code reads only `htmlContent`. -/
def summarizeNewsAfterRead (fmt : Int → String) (hasApiKey : Bool)
    (cachedData : Option CacheEntry) (file : Option String) (now : Int)
    (htmlContent : Option String) (forceRegenerate : Bool)
    (api : ApiResult) (genTime : Int) : HandlerOutcome :=
  let _ := forceRegenerate
  let hs : Option String × Option String :=
    match cachedData with
    | some c =>
      if now - c.timestamp < throttleMs then
        (some (throttleActiveHeader fmt c.timestamp now), some c.summary)
      else (none, none)
    | none => (none, none)
  let headerToReturn := hs.1
  let summaryToReturn := hs.2
  if jsFalsyOptStr summaryToReturn then
    generateArm fmt hasApiKey file htmlContent api genTime
  else
    ⟨.ok headerToReturn (summaryToReturn.getD ""), file, false⟩

/-- The complete Anthropic-variant handler: read the cache, then run the
continuation. -/
def summarizeNewsHandler (fmt : Int → String) (hasApiKey : Bool)
    (file : Option String) (now : Int) (htmlContent : Option String)
    (forceRegenerate : Bool) (api : ApiResult) (genTime : Int) : HandlerOutcome :=
  summarizeNewsAfterRead fmt hasApiKey (readCache file) file now htmlContent
    forceRegenerate api genTime

/-- A concrete locale formatter for closed evaluations (the banner text is
locale-dependent; no claim depends on its bytes). -/
def fmt0 : Int → String := fun _ => ""

-- Sanity: empty cache forces the generate path; fresh cache is served.
example :
    (summarizeNewsHandler fmt0 true none 0 (some "H") false (.okResp (some "S")) 0).calledApi
      = true := by decide
set_option maxRecDepth 40000 in
example :
    summarizeNewsHandler fmt0 true (some "0\nX") 1 (some "H") false (.okResp (some "S")) 0
      = ⟨.ok (some (throttleActiveHeader fmt0 0 1)) "X", some "0\nX", false⟩ := by decide
set_option maxRecDepth 40000 in
example :
    (summarizeNewsHandler fmt0 true (some "0\nX") throttleMs (some "H") false
      (.okResp (some "S")) throttleMs).calledApi = true := by decide

/-- Throttle-active banner of the Gemini file-cache variant (the wording
differs slightly from the Anthropic one). -/
def gThrottleHeader (fmt : Int → String) (ts now : Int) : String :=
  "\n                ## ⏳ Summary Throttle Active ⏳\n                This summary was last generated at **"
    ++ fmt ts
    ++ "**.\n                The next beneficial generation time is **"
    ++ fmt (ts + throttleMs)
    ++ "** (in "
    ++ intStr (ceilMinutes (throttleMs - (now - ts)))
    ++ " minutes).\n                The AI model was not called to conserve API resources.\n                ---\n            "

/-- Freshly-generated banner of the Gemini file-cache variant. -/
def gFreshHeader (fmt : Int → String) (newTs : Int) : String :=
  "\n                ## ✅ Summary Freshly Generated ✅\n                This summary was generated **just now** at **"
    ++ fmt newTs
    ++ "**.\n                The next beneficial generation time will be **"
    ++ fmt (newTs + throttleMs)
    ++ "**.\n                ---\n            "

/-- Outcome of `ai.models.generateContent`: generated text, or a thrown
error. -/
inductive GeminiResult where
  | ok (text : String)
  | err (msg : String)
deriving DecidableEq

/-- HTTP response of the Gemini file-cache variant: `res.json({summary})`
carries a single `summary` field and no `header` field. -/
inductive GResponse where
  | ok (summary : String)
  | badRequest (error : String)
  | serverError (error : String)
deriving DecidableEq

/-- Outcome of one request against the Gemini file-cache variant. -/
structure GOutcome where
  response : GResponse
  file : Option String
  calledApi : Bool
deriving DecidableEq

/-- The `app.post('/api/summarize-news')` handler of the Gemini file-cache
variant (server.js lines 357-456): on the cached path it returns
`cacheHeader + cachedData.summary` as the single `summary` field, and on
the generated path `newCacheHeader + newSummary`. -/
def summarizeNewsHandlerGemini (fmt : Int → String) (file : Option String)
    (now : Int) (htmlContent : Option String) (api : GeminiResult)
    (genTime : Int) : GOutcome :=
  let cachedData := readCache file
  let summaryToReturn : Option String :=
    match cachedData with
    | some c =>
      if now - c.timestamp < throttleMs then
        some (gThrottleHeader fmt c.timestamp now ++ c.summary)
      else none
    | none => none
  if jsFalsyOptStr summaryToReturn then
    if jsFalsyOptStr htmlContent then
      ⟨.badRequest "Missing HTML content in request body.", file, false⟩
    else
      match api with
      | .ok text =>
        ⟨.ok (gFreshHeader fmt genTime ++ text), writeCache genTime text, true⟩
      | .err _ =>
        ⟨.serverError "Failed to generate AI summary. Check server logs.", file, true⟩
  else
    ⟨.ok (summaryToReturn.getD ""), file, false⟩

/-- State of the Redis backend as seen by one request: unreachable
(every command throws), or reachable with the current values of the
timestamp and summary keys. -/
inductive RedisState where
  | unreachable
  | reachable (tsVal : Option String) (sumVal : Option String)
deriving DecidableEq

/-- Model of `readCache()` of the Redis variant (server.js lines 600-622):
`mget` both keys; any thrown error, a missing or empty value of either
key, or a NaN timestamp is a miss. -/
def readCacheRedis : RedisState → Option CacheEntry
  | .unreachable => none
  | .reachable tsVal sumVal =>
    if jsFalsyOptStr tsVal || jsFalsyOptStr sumVal then none
    else
      match parseInt10 (tsVal.getD "").data with
      | none => none
      | some ts => some ⟨ts, sumVal.getD ""⟩

/-- Model of `summary.replace(/]]>/g, ']]]]><![CDATA[>')` in
`updateFeedXML`: the replacement text. -/
def cdataRepl : List Char := "]]]]><![CDATA[>".data

/-- Left-to-right global replacement of the substring represented by
the three characters right-bracket right-bracket greater-than, as
performed by the feed renderer. -/
def replaceCdata : List Char → List Char
  | ']' :: ']' :: '>' :: rest => cdataRepl ++ replaceCdata rest
  | c :: rest => c :: replaceCdata rest
  | [] => []

/-- Whether the list begins with the three-character CDATA terminator. -/
def startsCdata : List Char → Bool
  | ']' :: ']' :: '>' :: _ => true
  | _ => false

/-- Whether the CDATA terminator occurs as a substring. -/
def hasCdataEnd : List Char → Bool
  | [] => false
  | c :: rest => startsCdata (c :: rest) || hasCdataEnd rest

/-- String form of the CDATA escape. -/
def escapeCdataStr (s : String) : String := String.mk (replaceCdata s.data)

/-- The ambient date formatters of `daily-update.js` (`formatTimestamp`,
`toUTCString`, the ISO date for the guid), abstracted. -/
structure DateFns where
  locale : Int → String
  utc : Int → String
  isoDate : Int → String

/-- Everything of the `feed.xml` template before the escaped summary. -/
def feedXmlPrefix (df : DateFns) (ts : Int) : String :=
  "<?xml version=\"1.0\" encoding=\"UTF-8\" ?>\n<rss version=\"2.0\" xmlns:atom=\"http://www.w3.org/2005/Atom\">\n  <channel>\n    <title>AdTech News - AI Strategy Summary</title>\n    <link>http://localhost:3000</link>\n    <description>Claude AI-generated strategic analysis of AdTech, Marketing, and Enterprise Technology news</description>\n    <language>en-us</language>\n    <lastBuildDate>"
    ++ df.utc ts
    ++ "</lastBuildDate>\n    <atom:link href=\"http://localhost:3000/feed.xml\" rel=\"self\" type=\"application/rss+xml\" />\n\n    <item>\n      <title>AI Strategy Summary - AdTech &amp; Marketing News</title>\n      <link>http://localhost:3000</link>\n      <guid isPermaLink=\"false\">adtech-summary-"
    ++ df.isoDate ts
    ++ "</guid>\n      <pubDate>"
    ++ df.utc ts
    ++ "</pubDate>\n      <description><![CDATA[\n"

/-- Everything of the `feed.xml` template after the escaped summary. -/
def feedXmlSuffix (df : DateFns) (ts : Int) : String :=
  "\n\n---\n\n**Last Updated**: "
    ++ df.locale ts
    ++ "\n\n**About This Feed**:\nThis feed contains AI-generated strategic analysis powered by Claude (Anthropic).\nThe summary is updated periodically based on aggregated news from Marketing Dive, Adweek, AdExchanger,\nVideoWeek, CIO Dive, Banking Dive, Wired, and other industry sources.\n\n**How it works**:\n1. The system aggregates news from 15+ industry RSS feeds\n2. Claude AI analyzes the content for strategic patterns and insights\n3. A structured summary is generated highlighting trends, takeaways, and risks\n4. This feed is updated daily via automated GitHub Actions\n\n**Throttling**: To conserve API resources, summaries are generated no more frequently than every "
    ++ natStr throttleMinutes
    ++ " minutes.\n      ]]></description>\n    </item>\n  </channel>\n</rss>"

/-- The `feed.xml` document produced by `updateFeedXML(timestamp, summary)`
(daily-update.js lines 116-158): the description CDATA block holds the
escaped summary between the fixed template parts. -/
def feedXml (df : DateFns) (ts : Int) (summary : String) : String :=
  feedXmlPrefix df ts ++ escapeCdataStr summary ++ feedXmlSuffix df ts

/-- `generateClaudeSummary` of daily-update.js reduced to its outcome: a
non-ok HTTP status throws (without the response body in the message), a
network error propagates, and a successful response yields
`data.content?.[0]?.text || fallback`. -/
def dailyGenerate : ApiResult → Except String String
  | .httpError status _ =>
    .error ("Anthropic API request failed with status " ++ natStr status)
  | .netError msg => .error msg
  | .okResp text =>
    .ok (if jsFalsyOptStr text then claudeFallbackText else text.getD "")

/-- Outcome of one run of daily-update.js `main()`: resulting cache file,
the feed.xml just written (if any), whether the summarizer was invoked,
whether the cached summary was served, and whether the run exited
with an error. -/
structure DailyOutcome where
  file : Option String
  feed : Option String
  calledApi : Bool
  servedCached : Bool
  fatal : Bool
deriving DecidableEq

/-- The generation arm of `main()`: abort when no news item was fetched,
otherwise call the summarizer and on success write cache and feed. -/
def dailyGeneratePath (df : DateFns) (file : Option String)
    (newsCount : Nat) (api : ApiResult) (genTime : Int) : DailyOutcome :=
  if newsCount = 0 then ⟨file, none, false, false, true⟩
  else
    match dailyGenerate api with
    | .ok s => ⟨writeCache genTime s, some (feedXml df genTime s), true, false, false⟩
    | .error _ => ⟨file, none, true, false, true⟩

/-- `main()` of daily-update.js (lines 310-361): read the cache; a fresh
entry re-renders feed.xml from the cached summary without calling the
summarizer; otherwise generate. -/
def dailyMain (df : DateFns) (file : Option String) (now : Int)
    (newsCount : Nat) (api : ApiResult) (genTime : Int) : DailyOutcome :=
  match readCache file with
  | some c =>
    if now - c.timestamp < throttleMs then
      ⟨file, some (feedXml df c.timestamp c.summary), false, true, false⟩
    else dailyGeneratePath df file newsCount api genTime
  | none => dailyGeneratePath df file newsCount api genTime

-- Sanity examples.
example : readCacheRedis .unreachable = none := by decide
example : readCacheRedis (.reachable (some "12") (some "S")) = some ⟨12, "S"⟩ := by decide
example : readCacheRedis (.reachable (some "") (some "S")) = none := by decide
example : escapeCdataStr "a]]>b" = "a]]]]><![CDATA[>b" := by decide
example : escapeCdataStr "plain" = "plain" := by decide

/-! ### Helper lemmas: digits and characters -/

theorem dChar_toNat {d : Nat} (h : d < 10) : (dChar d).toNat = 48 + d := by
  interval_cases d <;> decide

theorem dChar_isDigit {d : Nat} (h : d < 10) : (dChar d).isDigit = true := by
  interval_cases d <;> decide

theorem isJsSpace_eq_false_of_isDigit {c : Char} (h : c.isDigit = true) :
    isJsSpace c = false := by
  cases hs : isJsSpace c
  · rfl
  · exfalso
    simp only [isJsSpace, Bool.or_eq_true, decide_eq_true_eq] at hs
    rcases hs with ((((rfl | rfl) | rfl) | rfl) | rfl) | rfl <;> exact absurd h (by decide)

theorem ne_nl_of_isDigit {c : Char} (h : c.isDigit = true) : c ≠ '\n' := by
  intro h'
  subst h'
  exact absurd h (by decide)

theorem ne_minus_of_isDigit {c : Char} (h : c.isDigit = true) : c ≠ '-' := by
  intro h'
  subst h'
  exact absurd h (by decide)

theorem ne_plus_of_isDigit {c : Char} (h : c.isDigit = true) : c ≠ '+' := by
  intro h'
  subst h'
  exact absurd h (by decide)

theorem natCharsCore_eq_digits :
    ∀ (fuel n : Nat) (acc : List Char), 0 < n → n < 10 ^ fuel →
      natCharsCore fuel n acc = ((Nat.digits 10 n).map dChar).reverse ++ acc := by
  intro fuel
  induction fuel with
  | zero => intro n acc hn hlt; omega
  | succ fuel ih =>
    intro n acc hn hlt
    by_cases h10 : n < 10
    · have hdig : Nat.digits 10 n = [n % 10] := by
        rw [Nat.digits_def' (by norm_num) hn]
        have : n / 10 = 0 := Nat.div_eq_of_lt h10
        rw [this]
        simp
      simp [natCharsCore, if_pos h10, hdig, Nat.mod_eq_of_lt h10]
    · have hq : 0 < n / 10 := Nat.div_pos (le_of_not_lt h10) (by norm_num)
      have hqlt : n / 10 < 10 ^ fuel := by
        rw [Nat.div_lt_iff_lt_mul (by norm_num)]
        calc n < 10 ^ (fuel + 1) := hlt
        _ = 10 ^ fuel * 10 := by ring
      have := ih (n / 10) (dChar (n % 10) :: acc) hq hqlt
      simp only [natCharsCore, if_neg h10, this,
        Nat.digits_def' (b := 10) (by norm_num) hn, List.map_cons,
        List.reverse_cons, List.append_assoc, List.singleton_append]

theorem natChars_eq {n : Nat} (hn : 0 < n) :
    natChars n = ((Nat.digits 10 n).map dChar).reverse := by
  have := natCharsCore_eq_digits (n + 1) n [] hn
    (lt_of_lt_of_le (Nat.lt_pow_self (by norm_num) n) (Nat.pow_le_pow_right (by norm_num) (by omega)))
  simpa [natChars] using this

theorem natChars_all_digits {n : Nat} : ∀ c ∈ natChars n, c.isDigit = true := by
  rcases Nat.eq_zero_or_pos n with rfl | hn
  · intro c hc
    simp only [show natChars 0 = ['0'] from rfl, List.mem_singleton] at hc
    subst hc
    decide
  · intro c hc
    rw [natChars_eq hn] at hc
    simp only [List.mem_reverse, List.mem_map] at hc
    obtain ⟨d, hd, rfl⟩ := hc
    exact dChar_isDigit (Nat.digits_lt_base (by norm_num) hd)

theorem natChars_ne_nil {n : Nat} : natChars n ≠ [] := by
  rcases Nat.eq_zero_or_pos n with rfl | hn
  · decide
  · rw [natChars_eq hn]
    simp [Nat.digits_ne_nil_iff_ne_zero, Nat.pos_iff_ne_zero.mp hn]

theorem digitsVal_append_singleton (ds : List Char) (c : Char) :
    digitsVal (ds ++ [c]) = digitsVal ds * 10 + (c.toNat - 48) := by
  simp [digitsVal, List.foldl_append]

theorem digitsVal_map_dChar_reverse :
    ∀ L : List Nat, (∀ d ∈ L, d < 10) →
      digitsVal ((L.map dChar).reverse) = Nat.ofDigits 10 L := by
  intro L
  induction L with
  | nil => intro _; simp [digitsVal, Nat.ofDigits_nil]
  | cons d L ih =>
    intro hall
    have hd : d < 10 := hall d (List.mem_cons_self d L)
    have hL : ∀ x ∈ L, x < 10 := fun x hx => hall x (List.mem_cons_of_mem d hx)
    simp only [List.map_cons, List.reverse_cons, digitsVal_append_singleton,
      ih hL, Nat.ofDigits_cons, dChar_toNat hd]
    omega

theorem digitsVal_natChars (n : Nat) : digitsVal (natChars n) = n := by
  rcases Nat.eq_zero_or_pos n with rfl | hn
  · decide
  · rw [natChars_eq hn,
      digitsVal_map_dChar_reverse _ (fun d hd => Nat.digits_lt_base (by norm_num) hd),
      Nat.ofDigits_digits]

/-! ### Helper lemmas: lists, split, join, trim -/

theorem takeWhile_all {p : Char → Bool} :
    ∀ l : List Char, (∀ c ∈ l, p c = true) → l.takeWhile p = l := by
  intro l
  induction l with
  | nil => intro _; rfl
  | cons c t ih =>
    intro h
    have hc : p c = true := h c (List.mem_cons_self c t)
    simp [List.takeWhile_cons, hc, ih (fun x hx => h x (List.mem_cons_of_mem c hx))]

theorem takeWhile_all_append {p : Char → Bool} :
    ∀ (a b : List Char), (∀ c ∈ a, p c = true) →
      (a ++ b).takeWhile p = a ++ b.takeWhile p := by
  intro a
  induction a with
  | nil => intro b _; rfl
  | cons c t ih =>
    intro b h
    have hc : p c = true := h c (List.mem_cons_self c t)
    simp [List.takeWhile_cons, hc, ih b (fun x hx => h x (List.mem_cons_of_mem c hx))]

theorem dropWhile_shape (p : Char → Bool) :
    ∀ l : List Char, l.dropWhile p = [] ∨
      ∃ c t, l.dropWhile p = c :: t ∧ p c = false := by
  intro l
  induction l with
  | nil => exact Or.inl rfl
  | cons c t ih =>
    cases hc : p c
    · exact Or.inr ⟨c, t, by simp [List.dropWhile_cons, hc], hc⟩
    · simpa [List.dropWhile_cons, hc] using ih

theorem splitNl_ne_nil : ∀ l : List Char, splitNl l ≠ [] := by
  intro l
  induction l with
  | nil => simp [splitNl]
  | cons c t ih =>
    by_cases hc : c = '\n'
    · subst hc; simp [splitNl]
    · cases hs : splitNl t with
      | nil => exact absurd hs ih
      | cons h rest => simp [splitNl, hc, hs]

theorem splitNl_cons_ne_nl {c : Char} (hc : c ≠ '\n') (l : List Char) :
    splitNl (c :: l) =
      match splitNl l with
      | h :: t => (c :: h) :: t
      | [] => [[c]] := by
  simp [splitNl, hc]

theorem splitNl_append_nl :
    ∀ (a b : List Char), '\n' ∉ a → splitNl (a ++ '\n' :: b) = a :: splitNl b := by
  intro a
  induction a with
  | nil => intro b _; simp [splitNl]
  | cons c t ih =>
    intro b h
    have hc : c ≠ '\n' := fun hh => h (hh ▸ List.mem_cons_self c t)
    have ht : '\n' ∉ t := fun hh => h (List.mem_cons_of_mem c hh)
    rw [List.cons_append, splitNl_cons_ne_nl hc, ih b ht]

theorem joinNl_splitNl : ∀ l : List Char, joinNl (splitNl l) = l := by
  intro l
  induction l with
  | nil => rfl
  | cons c t ih =>
    by_cases hc : c = '\n'
    · subst hc
      have := splitNl_ne_nil t
      cases hs : splitNl t with
      | nil => exact absurd hs this
      | cons h rest =>
        rw [show splitNl ('\n' :: t) = [] :: splitNl t from rfl, hs]
        rw [hs] at ih
        simpa [joinNl] using ih
    · rw [splitNl_cons_ne_nl hc]
      cases hs : splitNl t with
      | nil => exact absurd hs (splitNl_ne_nil t)
      | cons h rest =>
        rw [hs] at ih
        cases rest with
        | nil => simpa [joinNl] using congrArg (c :: ·) ih
        | cons h2 t2 => simpa [joinNl] using congrArg (c :: ·) ih

/-- Final element of a nonempty list of line fragments (empty for `[]`). -/
def lastPart : List (List Char) → List Char
  | [] => []
  | [x] => x
  | _ :: xs => lastPart xs

theorem lastPart_cons_cons (x y : List Char) (t : List (List Char)) :
    lastPart (x :: y :: t) = lastPart (y :: t) := rfl

theorem lastPart_splitNl_ne_nil :
    ∀ (l : List Char) (c : Char), c ≠ '\n' → lastPart (splitNl (l ++ [c])) ≠ [] := by
  intro l
  induction l with
  | nil =>
    intro c hc
    simp [splitNl, hc, lastPart]
  | cons d t ih =>
    intro c hc
    have hne := splitNl_ne_nil (t ++ [c])
    by_cases hd : d = '\n'
    · subst hd
      have hstep : splitNl ('\n' :: (t ++ [c])) = [] :: splitNl (t ++ [c]) := by
        simp [splitNl]
      rw [List.cons_append, hstep]
      cases hs : splitNl (t ++ [c]) with
      | nil => exact absurd hs hne
      | cons h rest =>
        rw [lastPart_cons_cons]
        have ihc := ih c hc
        rw [hs] at ihc
        exact ihc
    · rw [List.cons_append, splitNl_cons_ne_nl hd]
      cases hs : splitNl (t ++ [c]) with
      | nil => exact absurd hs hne
      | cons h rest =>
        cases rest with
        | nil =>
          have := ih c hc
          rw [hs] at this
          simp only [lastPart] at this ⊢
          simp [this]
        | cons h2 t2 =>
          have := ih c hc
          rw [hs, lastPart_cons_cons] at this
          simpa [lastPart] using this

theorem jsTrim_shape (l : List Char) :
    jsTrim l = [] ∨ ∃ q c, jsTrim l = q ++ [c] ∧ isJsSpace c = false := by
  unfold jsTrim
  rcases dropWhile_shape isJsSpace (l.dropWhile isJsSpace).reverse with h | ⟨c, t, h, hc⟩
  · rw [h]; exact Or.inl rfl
  · rw [h]
    exact Or.inr ⟨t.reverse, c, by simp, hc⟩

theorem jsTrim_id (d : Char) (m : List Char) (c : Char)
    (hd : isJsSpace d = false) (hc : isJsSpace c = false) :
    jsTrim (d :: (m ++ [c])) = d :: (m ++ [c]) := by
  unfold jsTrim
  rw [List.dropWhile_cons, hd]
  simp only [Bool.false_eq_true, if_false]
  rw [show (d :: (m ++ [c])).reverse = c :: (m.reverse ++ [d]) from by simp]
  rw [List.dropWhile_cons, hc]
  simp

theorem parseDigits_append (n : Nat) (extra : List Char)
    (hd : ∀ e t, extra = e :: t → e.isDigit = false) :
    parseDigits (natChars n ++ extra) = some n := by
  obtain ⟨a, b, hn⟩ : ∃ a b, natChars n = a :: b := by
    cases hn : natChars n with
    | nil => exact absurd hn natChars_ne_nil
    | cons a b => exact ⟨a, b, rfl⟩
  have hscrut : (natChars n ++ extra).takeWhile Char.isDigit = natChars n := by
    rw [takeWhile_all_append (natChars n) extra natChars_all_digits]
    cases extra with
    | nil => simp
    | cons e t =>
      rw [List.takeWhile_cons, hd e t rfl]
      simp
  unfold parseDigits
  rw [hscrut, hn]
  show some (digitsVal (a :: b)) = some n
  rw [← hn, digitsVal_natChars]

theorem parseInt10_natChars_append (n : Nat) (extra : List Char)
    (hd : ∀ e t, extra = e :: t → e.isDigit = false) :
    parseInt10 (natChars n ++ extra) = some (n : Int) := by
  obtain ⟨a, b, hn⟩ : ∃ a b, natChars n = a :: b := by
    cases hn : natChars n with
    | nil => exact absurd hn natChars_ne_nil
    | cons a b => exact ⟨a, b, rfl⟩
  have ha : a.isDigit = true := natChars_all_digits a (hn ▸ List.mem_cons_self a b)
  unfold parseInt10
  rw [hn, List.cons_append, List.dropWhile_cons, isJsSpace_eq_false_of_isDigit ha]
  simp only [Bool.false_eq_true, if_false]
  rw [if_neg (ne_minus_of_isDigit ha), if_neg (ne_plus_of_isDigit ha)]
  rw [← List.cons_append, ← hn, parseDigits_append n extra hd]
  rfl

/-! ### Helper lemmas: cache read/write round trip -/

theorem readCache_concat (n : Nat) (extra : List Char) (q : List Char) (c : Char)
    (hxnl : ∀ x ∈ extra, x ≠ '\n')
    (hxd : ∀ e t, extra = e :: t → e.isDigit = false)
    (hc : isJsSpace c = false) :
    readCache (some (String.mk (natChars n ++ extra ++ '\n' :: (q ++ [c]))))
      = some ⟨(n : Int), String.mk (q ++ [c])⟩ := by
  obtain ⟨a, b, hn⟩ : ∃ a b, natChars n = a :: b := by
    cases hn : natChars n with
    | nil => exact absurd hn natChars_ne_nil
    | cons a b => exact ⟨a, b, rfl⟩
  have ha : a.isDigit = true := natChars_all_digits a (hn ▸ List.mem_cons_self a b)
  have hasp : isJsSpace a = false := isJsSpace_eq_false_of_isDigit ha
  have htrim :
      jsTrim (natChars n ++ extra ++ '\n' :: (q ++ [c]))
        = natChars n ++ extra ++ '\n' :: (q ++ [c]) := by
    have hshape :
        natChars n ++ extra ++ '\n' :: (q ++ [c])
          = a :: ((b ++ extra ++ '\n' :: q) ++ [c]) := by
      rw [hn]
      simp [List.append_assoc]
    rw [hshape, jsTrim_id a _ c hasp hc, ← hshape]
  have hnonl : '\n' ∉ natChars n ++ extra := by
    intro hmem
    rcases List.mem_append.mp hmem with hm | hm
    · exact ne_nl_of_isDigit (natChars_all_digits _ hm) rfl
    · exact hxnl _ hm rfl
  have hsplit :
      splitNl (natChars n ++ extra ++ '\n' :: (q ++ [c]))
        = (natChars n ++ extra) :: splitNl (q ++ [c]) := by
    have hraw := splitNl_append_nl (natChars n ++ extra) (q ++ [c]) hnonl
    simpa [List.append_assoc] using hraw
  obtain ⟨l1, rest, hqc⟩ : ∃ l1 rest, splitNl (q ++ [c]) = l1 :: rest := by
    cases hs : splitNl (q ++ [c]) with
    | nil => exact absurd hs (splitNl_ne_nil _)
    | cons l1 rest => exact ⟨l1, rest, rfl⟩
  have hjoin : joinNl (l1 :: rest) = q ++ [c] := by
    rw [← hqc]
    exact joinNl_splitNl (q ++ [c])
  show readCache (some ⟨natChars n ++ extra ++ '\n' :: (q ++ [c])⟩) = _
  unfold readCache
  simp only [String.data]
  rw [htrim, hsplit, hqc]
  show (match parseInt10 (natChars n ++ extra) with
        | none => none
        | some ts => some (⟨ts, String.mk (joinNl (l1 :: rest))⟩ : CacheEntry))
      = some ⟨(n : Int), String.mk (q ++ [c])⟩
  rw [parseInt10_natChars_append n extra hxd]
  show some (⟨(n : Int), String.mk (joinNl (l1 :: rest))⟩ : CacheEntry) = _
  rw [hjoin]

theorem readCache_writeCache_eq (n : Nat) (q : List Char) (c : Char)
    (hc : isJsSpace c = false) :
    readCache (writeCache (n : Int) (String.mk (q ++ [c])))
      = some ⟨(n : Int), String.mk (q ++ [c])⟩ := by
  have hw : writeCache (n : Int) (String.mk (q ++ [c]))
      = some (String.mk (natChars n ++ [] ++ '\n' :: (q ++ [c]))) := by
    unfold writeCache intChars
    rw [if_neg (by exact not_lt.mpr (Int.natCast_nonneg n)), Int.toNat_natCast]
    simp
  rw [hw, readCache_concat n [] q c (by simp) (fun e t hh => by cases hh) hc]

/-- Any entry `readCache` actually returns has a nonempty summary (the
trailing trim makes a cache file with an empty summary line impossible). -/
theorem readCache_summary_ne_empty {file : Option String} {c : CacheEntry}
    (h : readCache file = some c) : c.summary ≠ "" := by
  cases file with
  | none => simp [readCache] at h
  | some content =>
    rw [show readCache (some content)
        = (match splitNl (jsTrim content.data) with
           | l0 :: l1 :: rest =>
             (match parseInt10 l0 with
              | none => none
              | some ts => some ⟨ts, String.mk (joinNl (l1 :: rest))⟩)
           | _ => none) from rfl] at h
    cases hs : splitNl (jsTrim content.data) with
    | nil => exact absurd hs (splitNl_ne_nil _)
    | cons l0 rest0 =>
      rw [hs] at h
      cases rest0 with
      | nil => simp at h
      | cons l1 rest =>
        have h2 : (match parseInt10 l0 with
            | none => none
            | some ts => some (⟨ts, String.mk (joinNl (l1 :: rest))⟩ : CacheEntry))
            = some c := h
        cases hp : parseInt10 l0 with
        | none => rw [hp] at h2; simp at h2
        | some ts =>
          rw [hp] at h2
          simp only [Option.some.injEq] at h2
          subst h2
          simp only [ne_eq, String.ext_iff]
          show ¬joinNl (l1 :: rest) = "".data
          cases rest with
          | cons l2 rest2 =>
            intro hj
            simp only [joinNl] at hj
            exact absurd (congrArg List.length hj) (by simp)
          | nil =>
            intro hj
            have hl1 : l1 = [] := by simpa [joinNl] using hj
            rcases jsTrim_shape content.data with ht | ⟨tq, tc, ht, htc⟩
            · rw [ht] at hs
              simp [splitNl] at hs
            · rw [ht] at hs
              have hlast := lastPart_splitNl_ne_nil tq tc
                (fun hh => by rw [hh] at htc; exact absurd htc (by decide))
              rw [hs] at hlast
              simp [lastPart, hl1] at hlast

/-! ### Helper lemmas: CDATA escaping -/

theorem hasCdataEnd_cons_false {c : Char} {l : List Char}
    (h : hasCdataEnd (c :: l) = false) : hasCdataEnd l = false := by
  have h2 : (startsCdata (c :: l) || hasCdataEnd l) = false := h
  exact (Bool.or_eq_false_iff.mp h2).2

theorem startsCdata_cons_false {c : Char} {l : List Char}
    (h : hasCdataEnd (c :: l) = false) : startsCdata (c :: l) = false := by
  have h2 : (startsCdata (c :: l) || hasCdataEnd l) = false := h
  exact (Bool.or_eq_false_iff.mp h2).1

theorem startsCdata_false_no_match {l : List Char} (h : startsCdata l = false) :
    ¬ ∃ rest, l = ']' :: ']' :: '>' :: rest := by
  rintro ⟨rest, rfl⟩
  exact absurd h (by simp [startsCdata])

theorem replaceCdata_cons_of_no_match {c : Char} {l : List Char}
    (h : ¬ ∃ rest, c :: l = ']' :: ']' :: '>' :: rest) :
    replaceCdata (c :: l) = c :: replaceCdata l := by
  rw [replaceCdata.eq_def]
  split
  · rename_i rest heq
    exact absurd ⟨rest, heq⟩ h
  · rename_i c2 rest heq
    injection heq with h1 h2
    subst h1 h2
    rfl
  · simp_all

theorem replaceCdata_of_no_occurrence :
    ∀ l : List Char, hasCdataEnd l = false → replaceCdata l = l := by
  intro l
  induction l with
  | nil => intro _; rfl
  | cons c t ih =>
    intro h
    have ht := hasCdataEnd_cons_false h
    have hnm := startsCdata_false_no_match (startsCdata_cons_false h)
    rw [replaceCdata_cons_of_no_match hnm, ih ht]

theorem replaceCdata_insertion :
    ∀ a b : List Char, hasCdataEnd a = false →
      replaceCdata (a ++ ']' :: ']' :: '>' :: b) = a ++ cdataRepl ++ replaceCdata b := by
  intro a
  induction a with
  | nil =>
    intro b _
    simp only [List.nil_append]
    rfl
  | cons c t ih =>
    intro b h
    have ht := hasCdataEnd_cons_false h
    have hnm : ¬ ∃ rest, c :: (t ++ ']' :: ']' :: '>' :: b) = ']' :: ']' :: '>' :: rest := by
      rintro ⟨rest, heq⟩
      injection heq with h1 h2
      subst h1
      cases t with
      | nil =>
        injection h2 with h3 h4
        injection h4 with h5 h6
        exact absurd h5 (by decide)
      | cons x t2 =>
        injection h2 with h3 h4
        subst h3
        cases t2 with
        | nil =>
          injection h4 with h5 h6
          exact absurd h5 (by decide)
        | cons y t3 =>
          injection h4 with h5 h6
          subst h5
          have hsc : startsCdata (']' :: ']' :: '>' :: t3) = false := startsCdata_cons_false h
          exact absurd hsc (by simp [startsCdata])
    rw [List.cons_append, replaceCdata_cons_of_no_match hnm, ih b ht]
    simp

/-! ### Helper lemmas: handler paths -/

theorem handler_cached_path (fmt : Int → String) (hasApiKey : Bool)
    {file : Option String} (now : Int) (htmlContent : Option String)
    (forceRegenerate : Bool) (api : ApiResult) (genTime : Int) {c : CacheEntry}
    (hread : readCache file = some c) (hfresh : now - c.timestamp < throttleMs) :
    summarizeNewsHandler fmt hasApiKey file now htmlContent forceRegenerate api genTime
      = ⟨.ok (some (throttleActiveHeader fmt c.timestamp now)) c.summary, file, false⟩ := by
  have hne : c.summary ≠ "" := readCache_summary_ne_empty hread
  unfold summarizeNewsHandler summarizeNewsAfterRead
  rw [hread]
  simp only [hfresh, if_true, if_pos hfresh]
  have hfal : jsFalsyOptStr (some c.summary) = false := by
    simp [jsFalsyOptStr, hne]
  simp [hfal]

theorem handler_miss_path (fmt : Int → String) (hasApiKey : Bool)
    {file : Option String} (now : Int) (htmlContent : Option String)
    (forceRegenerate : Bool) (api : ApiResult) (genTime : Int)
    (hread : readCache file = none) :
    summarizeNewsHandler fmt hasApiKey file now htmlContent forceRegenerate api genTime
      = generateArm fmt hasApiKey file htmlContent api genTime := by
  unfold summarizeNewsHandler summarizeNewsAfterRead
  rw [hread]
  simp [jsFalsyOptStr]

theorem handler_expired_path (fmt : Int → String) (hasApiKey : Bool)
    {file : Option String} (now : Int) (htmlContent : Option String)
    (forceRegenerate : Bool) (api : ApiResult) (genTime : Int) {c : CacheEntry}
    (hread : readCache file = some c) (hexp : ¬ now - c.timestamp < throttleMs) :
    summarizeNewsHandler fmt hasApiKey file now htmlContent forceRegenerate api genTime
      = generateArm fmt hasApiKey file htmlContent api genTime := by
  unfold summarizeNewsHandler summarizeNewsAfterRead
  rw [hread]
  simp [hexp, jsFalsyOptStr]

theorem generateArm_httpError (fmt : Int → String) (file : Option String)
    {htmlContent : Option String} (status : Nat) (body : String) (genTime : Int)
    (hhtml : jsFalsyOptStr htmlContent = false) :
    generateArm fmt true file htmlContent (.httpError status body) genTime
      = ⟨.serverError (httpFailureMsg status body), file, true⟩ := by
  simp [generateArm, hhtml]

theorem generateArm_okResp (fmt : Int → String) (file : Option String)
    {htmlContent : Option String} (text : Option String) (genTime : Int)
    (hhtml : jsFalsyOptStr htmlContent = false) :
    generateArm fmt true file htmlContent (.okResp text) genTime
      = ⟨.ok (some (freshHeader fmt genTime)) (extractedText text),
          writeCache genTime (extractedText text), true⟩ := by
  simp [generateArm, hhtml]

theorem generateArm_calledApi (fmt : Int → String) (file : Option String)
    {htmlContent : Option String} (api : ApiResult) (genTime : Int)
    (hhtml : jsFalsyOptStr htmlContent = false) :
    (generateArm fmt true file htmlContent api genTime).calledApi = true := by
  cases api <;> simp [generateArm, hhtml]

/-- Concrete date formatters for closed evaluations. -/
def df0 : DateFns := ⟨fun _ => "", fun _ => "", fun _ => ""⟩

/-- The generate arm never produces a 200 response without having called
the summarizer. -/
theorem generateArm_ne_ok_uncalled (fmt : Int → String) (k : Bool)
    (file : Option String) (html : Option String) (api : ApiResult) (g : Int)
    (hdr : Option String) (s : String) (f2 : Option String) :
    generateArm fmt k file html api g ≠ ⟨.ok hdr s, f2, false⟩ := by
  unfold generateArm
  by_cases h1 : jsFalsyOptStr html
  · simp [h1]
  · by_cases h2 : k = false
    · simp [h1, h2]
    · cases api <;> simp [h1, h2]

/-- A 200 response out of the generate arm carries the extracted text of a
successful provider call. -/
theorem generateArm_ok_inv (fmt : Int → String) (k : Bool)
    (file : Option String) (html : Option String) (api : ApiResult) (g : Int)
    (hdr : Option String) (s : String)
    (h : (generateArm fmt k file html api g).response = .ok hdr s) :
    ∃ text, api = .okResp text ∧ s = extractedText text := by
  unfold generateArm at h
  by_cases h1 : jsFalsyOptStr html
  · simp [h1] at h
  · by_cases h2 : k = false
    · simp [h1, h2] at h
    · cases api with
      | httpError st b => simp [h1, h2] at h
      | netError m => simp [h1, h2] at h
      | okResp text =>
        simp [h1, h2, HandlerResponse.ok.injEq] at h
        exact ⟨text, rfl, h.2.symm⟩

/-- The generation arm of the daily update never reports a cached serve. -/
theorem dailyGeneratePath_not_cached (df : DateFns) (file : Option String)
    (news : Nat) (api : ApiResult) (g : Int) :
    (dailyGeneratePath df file news api g).servedCached = false := by
  unfold dailyGeneratePath
  by_cases hn : news = 0
  · simp [hn]
  · cases hgen : dailyGenerate api <;> simp [hn, hgen]

/-- `readCache` on a present file, unfolded. -/
theorem readCache_some (s : String) :
    readCache (some s)
      = (match splitNl (jsTrim s.data) with
         | l0 :: l1 :: rest =>
           (match parseInt10 l0 with
            | none => none
            | some ts => some (⟨ts, String.mk (joinNl (l1 :: rest))⟩ : CacheEntry))
         | _ => none) := rfl

/-! ### Claim theorems -/

/-- Claim C2: for every `now`, `generatedAt` and `window`, the throttle
decision serves the cached entry if and only if `now - generatedAt <
window` with strict less-than; equality counts as expired and triggers a
generation attempt. Stated for the pure policy, for the endpoint handler
(given a present cache entry) and for the daily-update run. -/
theorem C2_throttle_strict_boundary :
    (∀ now generatedAt window : Int,
      (throttleDecide now generatedAt window).isFresh = true ↔
        now - generatedAt < window) ∧
    (∀ now generatedAt window : Int, now - generatedAt = window →
      (throttleDecide now generatedAt window).isFresh = false) ∧
    (∀ (fmt : Int → String) (hasApiKey : Bool) (file : Option String) (now : Int)
        (html : Option String) (force : Bool) (api : ApiResult) (g : Int)
        (c : CacheEntry), readCache file = some c →
      (summarizeNewsHandler fmt hasApiKey file now html force api g
          = ⟨.ok (some (throttleActiveHeader fmt c.timestamp now)) c.summary, file, false⟩
        ↔ (throttleDecide now c.timestamp throttleMs).isFresh = true)) ∧
    (∀ (df : DateFns) (file : Option String) (now : Int) (news : Nat)
        (api : ApiResult) (g : Int) (c : CacheEntry), readCache file = some c →
      ((dailyMain df file now news api g).servedCached = true
        ↔ (throttleDecide now c.timestamp throttleMs).isFresh = true)) := by
  refine ⟨?_, ?_, ?_, ?_⟩
  · intro now generatedAt window
    simp [throttleDecide]
  · intro now generatedAt window h
    simp [throttleDecide, h]
  · intro fmt hasApiKey file now html force api g c hread
    by_cases hfresh : now - c.timestamp < throttleMs
    · constructor
      · intro _
        simp [throttleDecide, hfresh]
      · intro _
        exact handler_cached_path fmt hasApiKey now html force api g hread hfresh
    · constructor
      · intro heq
        rw [handler_expired_path fmt hasApiKey now html force api g hread hfresh] at heq
        exact absurd heq (generateArm_ne_ok_uncalled fmt hasApiKey file html api g _ _ _)
      · intro hdec
        simp [throttleDecide, hfresh] at hdec
  · intro df file now news api g c hread
    unfold dailyMain
    rw [hread]
    by_cases hfresh : now - c.timestamp < throttleMs
    · simp [hfresh, throttleDecide]
    · simp [hfresh, throttleDecide, dailyGeneratePath_not_cached]

/-- Witness for C2 at concrete inputs. -/
theorem C2_throttle_strict_boundary_witness :
    ((throttleDecide 5 0 10).isFresh = true ↔ (5 : Int) - 0 < 10) ∧
    (throttleDecide 10 0 10).isFresh = false ∧
    (summarizeNewsHandler fmt0 true (some "0\nX") 1 (some "H") false
          (.okResp (some "S")) 0
        = ⟨.ok (some (throttleActiveHeader fmt0 0 1)) "X", some "0\nX", false⟩
      ↔ (throttleDecide 1 0 throttleMs).isFresh = true) ∧
    ((dailyMain df0 (some "0\nX") 1 7 (.okResp (some "S")) 2).servedCached = true
      ↔ (throttleDecide 1 0 throttleMs).isFresh = true) :=
  ⟨C2_throttle_strict_boundary.1 5 0 10,
   C2_throttle_strict_boundary.2.1 10 0 10 (by decide),
   C2_throttle_strict_boundary.2.2.1 fmt0 true (some "0\nX") 1 (some "H") false
     (.okResp (some "S")) 0 ⟨0, "X"⟩ (by decide),
   C2_throttle_strict_boundary.2.2.2 df0 (some "0\nX") 1 7 (.okResp (some "S")) 2
     ⟨0, "X"⟩ (by decide)⟩

/-- Claim C3: when the external summarizer call fails (a non-ok provider
status such as 503), the request fails with the wrapped generation-failure
message as a 500 response, no cache write occurs (the file state is
returned unchanged), and a subsequent cache read still returns the prior
entry. -/
theorem C3_generation_failure_preserves_cache :
    ∀ (fmt : Int → String) (file : Option String) (now : Int)
      (html : Option String) (force : Bool) (status : Nat) (body : String)
      (g : Int) (c : CacheEntry),
      readCache file = some c → ¬ now - c.timestamp < throttleMs →
      jsFalsyOptStr html = false →
      summarizeNewsHandler fmt true file now html force (.httpError status body) g
          = ⟨.serverError (httpFailureMsg status body), file, true⟩ ∧
      readCache (summarizeNewsHandler fmt true file now html force
          (.httpError status body) g).file = some c := by
  intro fmt file now html force status body g c hread hexp hhtml
  have hstep :
      summarizeNewsHandler fmt true file now html force (.httpError status body) g
        = ⟨.serverError (httpFailureMsg status body), file, true⟩ := by
    rw [handler_expired_path fmt true now html force (.httpError status body) g hread hexp,
      generateArm_httpError fmt file status body g hhtml]
  exact ⟨hstep, by rw [hstep]; exact hread⟩

/-- Witness for C3: expired entry, provider returns 503; the 500 response
carries the wrapped message, and the prior entry is still readable. -/
theorem C3_generation_failure_preserves_cache_witness :
    summarizeNewsHandler fmt0 true (some "0\nX") throttleMs (some "H") false
        (.httpError 503 "overloaded") 9
        = ⟨.serverError (httpFailureMsg 503 "overloaded"), some "0\nX", true⟩ ∧
    readCache (summarizeNewsHandler fmt0 true (some "0\nX") throttleMs (some "H") false
        (.httpError 503 "overloaded") 9).file = some ⟨0, "X"⟩ :=
  C3_generation_failure_preserves_cache fmt0 (some "0\nX") throttleMs (some "H") false
    503 "overloaded" 9 ⟨0, "X"⟩ (by decide) (by decide) (by decide)

set_option maxRecDepth 80000 in
/-- Counterexample to claim C4: with a fresh cached entry and
`forceRegenerate = true` in the request, the handler still serves the
cached summary and does not invoke the summarizer (no variant of the
handler reads `forceRegenerate`). -/
theorem C4_forceRegenerate_ignored_cex :
    (summarizeNewsHandler fmt0 true (some "0\nX") 1 (some "H") true
        (.okResp (some "S")) 0).calledApi = false ∧
    summarizeNewsHandler fmt0 true (some "0\nX") 1 (some "H") true
        (.okResp (some "S")) 0
      = ⟨.ok (some (throttleActiveHeader fmt0 0 1)) "X", some "0\nX", false⟩ :=
  ⟨by decide, by decide⟩

/-- Claim C4 as amended: the handler ignores `forceRegenerate` entirely;
for every value of the flag, a fresh cached entry is served from the cache
and the summarizer is not invoked. -/
theorem C4_force_has_no_effect :
    ∀ (fmt : Int → String) (hasApiKey : Bool) (file : Option String) (now : Int)
      (html : Option String) (force : Bool) (api : ApiResult) (g : Int)
      (c : CacheEntry),
      readCache file = some c → now - c.timestamp < throttleMs →
      summarizeNewsHandler fmt hasApiKey file now html force api g
          = ⟨.ok (some (throttleActiveHeader fmt c.timestamp now)) c.summary,
              file, false⟩ := by
  intro fmt hasApiKey file now html force api g c hread hfresh
  exact handler_cached_path fmt hasApiKey now html force api g hread hfresh

/-- Witness for the amended C4, with `forceRegenerate = true`. -/
theorem C4_force_has_no_effect_witness :
    summarizeNewsHandler fmt0 true (some "5\nY") 6 none true
        (.httpError 500 "e") 7
      = ⟨.ok (some (throttleActiveHeader fmt0 5 6)) "Y", some "5\nY", false⟩ :=
  C4_force_has_no_effect fmt0 true (some "5\nY") 6 none true (.httpError 500 "e") 7
    ⟨5, "Y"⟩ (by decide) (by decide)

set_option maxRecDepth 200000 in
/-- Claim C1: the source never serializes the read-decide-generate-write
sequence. Two concurrent requests on an empty cache whose `readCache`
calls both complete before either `writeCache` (the second request is run
as the post-read continuation `summarizeNewsAfterRead` applied to the
stale read `readCache none`, but to the first request's resulting file)
each invoke the summarizer: two external calls instead of the single
flight the spec demands. The final conjunct shows the sequential case: a
request whose read happens after the first write is served from cache. -/
theorem C1_concurrent_double_generation :
    (summarizeNewsHandler fmt0 true none 0 (some "H") false
        (.okResp (some "S1")) 0).calledApi = true ∧
    (summarizeNewsAfterRead fmt0 true (readCache none)
        (summarizeNewsHandler fmt0 true none 0 (some "H") false
          (.okResp (some "S1")) 0).file
        0 (some "H") false (.okResp (some "S2")) 0).calledApi = true ∧
    (summarizeNewsHandler fmt0 true none 0 (some "H") false
        (.okResp (some "S1")) 0).calledApi.toNat
      + (summarizeNewsAfterRead fmt0 true (readCache none)
          (summarizeNewsHandler fmt0 true none 0 (some "H") false
            (.okResp (some "S1")) 0).file
          0 (some "H") false (.okResp (some "S2")) 0).calledApi.toNat = 2 ∧
    (summarizeNewsHandler fmt0 true
        (summarizeNewsHandler fmt0 true none 0 (some "H") false
          (.okResp (some "S1")) 0).file
        1 (some "H") false (.okResp (some "S3")) 2).calledApi = false :=
  ⟨by decide, by decide, by decide, by decide⟩

set_option maxRecDepth 80000 in
/-- Counterexample to claim C5: in the Gemini file-cache variant (cited by
the claim), the cached path returns a single `summary` field holding the
throttle banner concatenated with the stored summary, not the raw stored
text, and no separate `header` field exists. -/
theorem C5_gemini_header_concatenated_cex :
    (summarizeNewsHandlerGemini fmt0 (some "0\nX") 1 (some "H") (.ok "S") 0).response
        = .ok (gThrottleHeader fmt0 0 1 ++ "X") ∧
    gThrottleHeader fmt0 0 1 ++ "X" ≠ "X" :=
  ⟨by decide, by decide⟩

/-- Claim C5 as amended: in the variants that answer with the two separate
fields (shown for the Anthropic file-cache variant), every 200 response
carries as `summary` exactly the raw stored summary (cached path) or
exactly the freshly extracted provider text (generated path); the status
header is never concatenated into it. The Gemini file-cache variant
instead returns the banner concatenated with the text in its single
`summary` field. -/
theorem C5_summary_raw_in_split_variant :
    ∀ (fmt : Int → String) (hasApiKey : Bool) (file : Option String) (now : Int)
      (html : Option String) (force : Bool) (api : ApiResult) (g : Int)
      (hdr : Option String) (s : String),
      (summarizeNewsHandler fmt hasApiKey file now html force api g).response
          = .ok hdr s →
      (∃ c, readCache file = some c ∧ s = c.summary) ∨
        (∃ text, api = .okResp text ∧ s = extractedText text) := by
  intro fmt hasApiKey file now html force api g hdr s h
  cases hread : readCache file with
  | none =>
    rw [handler_miss_path fmt hasApiKey now html force api g hread] at h
    exact Or.inr (generateArm_ok_inv fmt hasApiKey file html api g hdr s h)
  | some c =>
    by_cases hfresh : now - c.timestamp < throttleMs
    · rw [handler_cached_path fmt hasApiKey now html force api g hread hfresh] at h
      injection h with h1 h2
      exact Or.inl ⟨c, rfl, h2.symm⟩
    · rw [handler_expired_path fmt hasApiKey now html force api g hread hfresh] at h
      exact Or.inr (generateArm_ok_inv fmt hasApiKey file html api g hdr s h)

set_option maxRecDepth 80000 in
/-- Witness for the amended C5 on the cached path. -/
theorem C5_summary_raw_in_split_variant_witness :
    (∃ c, readCache (some "0\nX") = some c ∧ "X" = c.summary) ∨
      (∃ text, ApiResult.okResp (some "S") = ApiResult.okResp text ∧
        "X" = extractedText text) :=
  C5_summary_raw_in_split_variant fmt0 true (some "0\nX") 1 (some "H") false
    (.okResp (some "S")) 0 (some (throttleActiveHeader fmt0 0 1)) "X" (by decide)

/-- Counterexample to claim C6: the cache round-trip is not the identity;
a payload with trailing whitespace is trimmed by `readCache`, so the
entry read back differs from the entry written. -/
theorem C6_roundtrip_cex :
    readCache (writeCache 0 "X ") = some ⟨0, "X"⟩ ∧
    readCache (writeCache 0 "X ") ≠ some ⟨0, "X "⟩ :=
  ⟨by decide, by decide⟩

/-- Claim C6 as amended: `writeCache` followed by `readCache` returns the
written entry exactly, provided the timestamp is a non-negative integer
and the payload is nonempty with a non-whitespace final character (the
trim inside `readCache` strips trailing whitespace, and an empty payload
reads back as a miss). -/
theorem C6_roundtrip_amended :
    ∀ (n : Nat) (q : List Char) (c : Char), isJsSpace c = false →
      readCache (writeCache (n : Int) (String.mk (q ++ [c])))
        = some ⟨(n : Int), String.mk (q ++ [c])⟩ := by
  intro n q c hc
  exact readCache_writeCache_eq n q c hc

/-- Witness for the amended C6 round trip. -/
theorem C6_roundtrip_amended_witness :
    readCache (writeCache (3 : Int) (String.mk ([] ++ ['X'])))
      = some ⟨(3 : Int), String.mk ([] ++ ['X'])⟩ :=
  C6_roundtrip_amended 3 [] 'X' (by decide)

set_option maxRecDepth 80000 in
/-- Counterexample to claim C7: when the provider call completes but no
summary text is extractable, the handler does not fail with a 500; it
substitutes the fixed fallback string, writes it to the cache and returns
it in a 200 response. -/
theorem C7_unusable_result_cached_200_cex :
    summarizeNewsHandler fmt0 true none 0 (some "H") false (.okResp none) 0
      = ⟨.ok (some (freshHeader fmt0 0)) claudeFallbackText,
          writeCache 0 claudeFallbackText, true⟩ ∧
    writeCache 0 claudeFallbackText ≠ none :=
  ⟨by decide, by decide⟩

/-- Claim C7 as amended: an unusable provider result (missing or empty
extractable text) is replaced by the fixed fallback string, which is
cached and returned with the freshly-generated header as an ordinary 200;
only a failed provider call (non-ok HTTP status) surfaces as a 500 with no
cache write. -/
theorem C7_unusable_result_fallback :
    ∀ (fmt : Int → String) (file : Option String) (now : Int)
      (html : Option String) (force : Bool) (g : Int) (text : Option String),
      readCache file = none → jsFalsyOptStr html = false →
      (jsFalsyOptStr text = true →
        summarizeNewsHandler fmt true file now html force (.okResp text) g
          = ⟨.ok (some (freshHeader fmt g)) claudeFallbackText,
              writeCache g claudeFallbackText, true⟩) ∧
      (∀ (status : Nat) (body : String),
        summarizeNewsHandler fmt true file now html force (.httpError status body) g
          = ⟨.serverError (httpFailureMsg status body), file, true⟩) := by
  intro fmt file now html force g text hread hhtml
  constructor
  · intro htext
    rw [handler_miss_path fmt true now html force (.okResp text) g hread,
      generateArm_okResp fmt file text g hhtml]
    simp [extractedText, htext]
  · intro status body
    rw [handler_miss_path fmt true now html force (.httpError status body) g hread,
      generateArm_httpError fmt file status body g hhtml]

/-- Witness for the amended C7. -/
theorem C7_unusable_result_fallback_witness :
    summarizeNewsHandler fmt0 true none 4 (some "H") false (.okResp none) 5
        = ⟨.ok (some (freshHeader fmt0 5)) claudeFallbackText,
            writeCache 5 claudeFallbackText, true⟩ ∧
    summarizeNewsHandler fmt0 true none 4 (some "H") false (.httpError 503 "x") 5
        = ⟨.serverError (httpFailureMsg 503 "x"), none, true⟩ :=
  ⟨(C7_unusable_result_fallback fmt0 none 4 (some "H") false 5 none
      (by decide) (by decide)).1 (by decide),
   (C7_unusable_result_fallback fmt0 none 4 (some "H") false 5 none
      (by decide) (by decide)).2 503 "x"⟩

/-- Claim C8: every failure mode of the cache read — file absent, entry
with fewer than two lines, NaN (unparseable) timestamp, Redis backend
unreachable or either key absent — yields the ordinary miss result
(`none`) rather than an error, and a miss routes the request to the
generation path (the summarizer is invoked, given valid input and key). -/
theorem C8_read_failures_are_misses :
    readCache none = none ∧
    (∀ s : String, (splitNl (jsTrim s.data)).length < 2 →
      readCache (some s) = none) ∧
    (∀ (s : String) (l0 l1 : List Char) (rest : List (List Char)),
      splitNl (jsTrim s.data) = l0 :: l1 :: rest → parseInt10 l0 = none →
      readCache (some s) = none) ∧
    readCacheRedis .unreachable = none ∧
    (∀ sv, readCacheRedis (.reachable none sv) = none) ∧
    (∀ tsv, readCacheRedis (.reachable tsv none) = none) ∧
    (∀ (tss sv : String), parseInt10 tss.data = none →
      readCacheRedis (.reachable (some tss) (some sv)) = none) ∧
    (∀ (fmt : Int → String) (file : Option String) (now : Int)
        (html : Option String) (force : Bool) (api : ApiResult) (g : Int),
      readCache file = none → jsFalsyOptStr html = false →
      (summarizeNewsHandler fmt true file now html force api g).calledApi = true) := by
  refine ⟨rfl, ?_, ?_, rfl, ?_, ?_, ?_, ?_⟩
  · intro s h
    rw [readCache_some]
    cases hs : splitNl (jsTrim s.data) with
    | nil => rfl
    | cons l0 rest0 =>
      cases rest0 with
      | nil => rfl
      | cons l1 rest =>
        rw [hs] at h
        simp at h
        omega
  · intro s l0 l1 rest hs hp
    rw [readCache_some, hs]
    show (match parseInt10 l0 with
          | none => none
          | some ts => some (⟨ts, String.mk (joinNl (l1 :: rest))⟩ : CacheEntry)) = none
    rw [hp]
  · intro sv
    simp [readCacheRedis, jsFalsyOptStr]
  · intro tsv
    cases tsv <;> simp [readCacheRedis, jsFalsyOptStr]
  · intro tss sv hp
    by_cases hts : tss = ""
    · simp [readCacheRedis, jsFalsyOptStr, hts]
    · by_cases hsv : sv = ""
      · simp [readCacheRedis, jsFalsyOptStr, hts, hsv]
      · simp only [readCacheRedis, jsFalsyOptStr, hts, hsv]
        simp [hp]
  · intro fmt file now html force api g hread hhtml
    rw [handler_miss_path fmt true now html force api g hread]
    exact generateArm_calledApi fmt file api g hhtml

/-- Witness for C8: the concrete failure modes and the routing. -/
theorem C8_read_failures_are_misses_witness :
    readCache (some "abc") = none ∧
    readCache (some "abc\nX") = none ∧
    readCacheRedis (.reachable (some "zz") (some "S")) = none ∧
    (summarizeNewsHandler fmt0 true none 0 (some "H") false
        (.okResp (some "S")) 0).calledApi = true :=
  ⟨C8_read_failures_are_misses.2.1 "abc" (by decide),
   C8_read_failures_are_misses.2.2.1 "abc\nX" "abc".data "X".data [] (by decide)
     (by decide),
   C8_read_failures_are_misses.2.2.2.2.2.2.1 "zz" "S" (by decide),
   C8_read_failures_are_misses.2.2.2.2.2.2.2 fmt0 none 0 (some "H") false
     (.okResp (some "S")) 0 (by decide) (by decide)⟩

/-- Claim C9: the feed renderer escapes every occurrence of the CDATA
terminator in the summary by the split replacement and alters nothing
else: a summary without the terminator passes through unchanged, and a
terminator after a clean prefix is rewritten to the replacement with the
rest processed identically; the escaped summary is embedded verbatim
inside the feed document between the fixed template parts. -/
theorem C9_cdata_escaping :
    (∀ s : List Char, hasCdataEnd s = false → replaceCdata s = s) ∧
    (∀ a b : List Char, hasCdataEnd a = false →
      replaceCdata (a ++ ']' :: ']' :: '>' :: b) = a ++ cdataRepl ++ replaceCdata b) ∧
    (∀ (df : DateFns) (ts : Int) (s : String),
      ∃ pre post, (feedXml df ts s).data = pre ++ ((escapeCdataStr s).data ++ post)) := by
  refine ⟨replaceCdata_of_no_occurrence, replaceCdata_insertion, ?_⟩
  intro df ts s
  exact ⟨(feedXmlPrefix df ts).data, (feedXmlSuffix df ts).data,
    by simp [feedXml, String.data_append]⟩

/-- Witness for C9: a clean summary passes through; an embedded terminator
is rewritten; the feed document contains the escaped summary. -/
theorem C9_cdata_escaping_witness :
    replaceCdata "abc".data = "abc".data ∧
    replaceCdata ("a".data ++ ']' :: ']' :: '>' :: "b".data)
      = "a".data ++ cdataRepl ++ replaceCdata "b".data ∧
    ∃ pre post,
      (feedXml df0 0 "s]]>t").data = pre ++ ((escapeCdataStr "s]]>t").data ++ post) :=
  ⟨C9_cdata_escaping.1 "abc".data (by decide),
   C9_cdata_escaping.2.1 "a".data "b".data (by decide),
   C9_cdata_escaping.2.2 df0 0 "s]]>t"⟩

/-- Claim C10 (implicit): the timestamp parse accepts a numeric prefix.
For every stored entry whose first line is decimal digits followed by
non-numeric characters (starting with a non-digit, no embedded newline),
`readCache` returns an entry whose timestamp is the numeric prefix rather
than treating the entry as malformed. -/
theorem C10_numeric_prefix_timestamp :
    ∀ (n : Nat) (e : Char) (junk q : List Char) (c : Char),
      e.isDigit = false → (∀ x ∈ e :: junk, x ≠ '\n') → isJsSpace c = false →
      readCache (some (String.mk (natChars n ++ (e :: junk) ++ '\n' :: (q ++ [c]))))
        = some ⟨(n : Int), String.mk (q ++ [c])⟩ := by
  intro n e junk q c he hnl hc
  refine readCache_concat n (e :: junk) q c hnl ?_ hc
  intro e2 t2 hh
  injection hh with h1 h2
  subst h1
  exact he

/-- Witness for C10: the cache file with first line `123abc` parses with
timestamp 123 and is not a miss. -/
theorem C10_numeric_prefix_timestamp_witness :
    readCache (some "123abc\nX") = some ⟨123, "X"⟩ := by
  have h := C10_numeric_prefix_timestamp 123 'a' "bc".data [] 'X'
    (by decide) (by decide) (by decide)
  rw [show String.mk (natChars 123 ++ ('a' :: "bc".data) ++ '\n' :: ([] ++ ['X']))
      = "123abc\nX" from by decide,
    show String.mk (([] : List Char) ++ ['X']) = "X" from by decide] at h
  exact h
